import Mathlib

/-!
Verification development for the MessageApp repository: a React Native CRUD
demo over a local-first reactive data store (WatermelonDB).  The repository
itself contains only the schema declaration (db/model/schema.ts), the empty
migrations list (db/model/migration.ts), the Users model declaration
(db/model/Users.ts) and the DatabaseTest screen with createUser, updateUser
and deleteUser.  The store engine itself (record store, write transactions,
migration runner, query and observation engine) is an external dependency,
so those parts are modelled from the specification, while the schema,
migration list and the screen operations are embedded from the source.
-/

set_option maxHeartbeats 1000000

namespace MessageApp

/-- Column types of the schema declaration surface (spec section 6;
    src/unnamed/part_000 uses the string/number variants). -/
inductive ColumnType where
  | string
  | number
  | boolean
  | date
deriving DecidableEq

/-- A column definition: name, primitive type, optional flag
    (src/unnamed/part_000 column entries). -/
structure ColumnSchema where
  name : String
  type : ColumnType
  isOptional : Bool
deriving DecidableEq

/-- A table definition: a name and its columns (src/unnamed/part_000,
    tableSchema). -/
structure TableSchema where
  name : String
  columns : List ColumnSchema
deriving DecidableEq

/-- The root schema: version plus tables (src/unnamed/part_000, appSchema). -/
structure AppSchema where
  version : Nat
  tables : List TableSchema
deriving DecidableEq

/-- Embedded from src/unnamed/part_000 (db/model/schema.ts): the users table
    with columns name, email (optional), created_at, updated_at. -/
def usersTable : TableSchema :=
  { name := "users",
    columns :=
      [ { name := "name", type := ColumnType.string, isOptional := false },
        { name := "email", type := ColumnType.string, isOptional := true },
        { name := "created_at", type := ColumnType.number, isOptional := false },
        { name := "updated_at", type := ColumnType.number, isOptional := false } ] }

/-- Embedded from src/unnamed/part_000 (db/model/schema.ts): appSchema with
    version 1 and the single users table. -/
def appSchema : AppSchema :=
  { version := 1, tables := [usersTable] }

/-- Embedded from src/db/model/Users.ts: the Users model declares
    readonly date decorators on created_at and updated_at, so the engine
    populates these timestamp columns automatically at creation. -/
def usersTimestampColumns : List String := ["created_at", "updated_at"]

/-- Column values: a typed value or null (spec section 3, Record). -/
inductive Value where
  | str (s : String)
  | num (n : Int)
  | bool (b : Bool)
  | null
deriving DecidableEq

/-- Record lifecycle status (spec section 3; the _status column of the
    generated SQLite table described in src/unnamed/part_002). -/
inductive Status where
  | created
  | updated
  | deleted
deriving DecidableEq

/-- A record: identifier, owning table, column values, lifecycle status and
    the changed-field list (spec section 3; the row layout with _status and
    _changed described in src/unnamed/part_002). -/
structure Rec where
  id : Nat
  table : String
  fields : List (String × Value)
  status : Status
  changedFields : List String
deriving DecidableEq

/-- The record store state: all rows plus the fresh-identifier counter and
    the applied schema version (spec sections 3 and 6). -/
structure DB where
  records : List Rec
  nextId : Nat
  version : Nat
deriving DecidableEq

/-- Error taxonomy (spec section 7). -/
inductive DbError where
  | schemaError
  | migrationError
  | validationError
  | notFoundError
  | transactionScopeError
  | constraintError
deriving DecidableEq

instance {ε α : Type} [DecidableEq ε] [DecidableEq α] : DecidableEq (Except ε α) :=
  fun a b =>
    match a, b with
    | Except.error e, Except.error f => decidable_of_iff (e = f) (by simp)
    | Except.error _, Except.ok _ => isFalse (by simp)
    | Except.ok _, Except.error _ => isFalse (by simp)
    | Except.ok x, Except.ok y => decidable_of_iff (x = y) (by simp)

/-- First value bound to a column name in an association list. -/
def lookupField (fields : List (String × Value)) (c : String) : Option Value :=
  (fields.find? (fun p => p.1 == c)).map (fun p => p.2)

/-- Modelled from the spec: the value a freshly created record gets for one
    declared column — the initializer's value when set, the creation
    timestamp for auto-populated timestamp columns, null for unset optional
    columns, and ValidationError for unset required columns (spec 4.3,
    create). -/
def columnValue (tsCols : List String) (now : Int) (init : List (String × Value))
    (c : ColumnSchema) : Except DbError Value :=
  match lookupField init c.name with
  | some v => Except.ok v
  | none =>
    if tsCols.contains c.name then Except.ok (Value.num now)
    else if c.isOptional then Except.ok Value.null
    else Except.error DbError.validationError

/-- Modelled from the spec: populate every declared column of a table for a
    fresh record, in declaration order (spec 4.3, create). -/
def populate (tsCols : List String) (now : Int) (init : List (String × Value)) :
    List ColumnSchema → Except DbError (List (String × Value))
  | [] => Except.ok []
  | c :: rest =>
    match columnValue tsCols now init c with
    | Except.error e => Except.error e
    | Except.ok v =>
      match populate tsCols now init rest with
      | Except.error e => Except.error e
      | Except.ok fields => Except.ok ((c.name, v) :: fields)

/-- State carried through one write transaction: the database plus the
    identifiers of records created in this still-uncommitted transaction
    (spec 4.3, update: status stays created for records created in the same
    uncommitted transaction). -/
structure TxSt where
  db : DB
  createdIds : List Nat
deriving DecidableEq

/-- Modelled from the spec: record store create — forbidden outside a write
    transaction (TransactionScopeError), allocates a fresh identifier,
    populates columns from the initializer with null defaults for unset
    optional columns and ValidationError for unset required ones, sets
    status created with an empty changed-field list (spec 4.3 and the
    default-empty _changed column of src/unnamed/part_002). -/
def createRec (inTx : Bool) (t : TableSchema) (tsCols : List String) (now : Int)
    (init : List (String × Value)) (s : TxSt) : Except DbError (Rec × TxSt) :=
  if inTx = false then Except.error DbError.transactionScopeError
  else
    match populate tsCols now init t.columns with
    | Except.error e => Except.error e
    | Except.ok fields =>
      let r : Rec :=
        { id := s.db.nextId, table := t.name, fields := fields,
          status := Status.created, changedFields := [] }
      Except.ok (r,
        { db := { s.db with records := s.db.records ++ [r], nextId := s.db.nextId + 1 },
          createdIds := s.db.nextId :: s.createdIds })

/-- Modelled from the spec: find by table and identifier, NotFoundError when
    no physical row exists (spec 4.3, find). -/
def find (t : String) (id : Nat) (db : DB) : Except DbError Rec :=
  match db.records.find? (fun r => r.table == t && r.id == id) with
  | some r => Except.ok r
  | none => Except.error DbError.notFoundError

/-- Apply a mutator to a record's fields: every column the mutator touches
    takes its new value, the rest stay. -/
def applyMuts (fields : List (String × Value)) (muts : List (String × Value)) :
    List (String × Value) :=
  fields.map (fun p =>
    match lookupField muts p.1 with
    | some v => (p.1, v)
    | none => p)

/-- Union of two changed-field lists, preserving first occurrences. -/
def unionNames (xs ys : List String) : List String :=
  xs ++ ys.filter (fun y => !(xs.contains y))

/-- Replace every row with the given row's table and identifier. -/
def replaceRec (db : DB) (r : Rec) : DB :=
  { db with records := db.records.map (fun x =>
      if x.table == r.table && x.id == r.id then r else x) }

/-- Modelled from the spec: record store update — must run inside a write
    transaction, applies the mutator, recomputes changedFields as the union
    of previously changed fields and fields touched this call, and sets
    status updated unless the record was created in the same uncommitted
    transaction, in which case the status stays (spec 4.3, update). -/
def updateRec (inTx : Bool) (t : String) (id : Nat) (muts : List (String × Value))
    (s : TxSt) : Except DbError (Rec × TxSt) :=
  if inTx = false then Except.error DbError.transactionScopeError
  else
    match find t id s.db with
    | Except.error e => Except.error e
    | Except.ok r =>
      let r2 : Rec :=
        { r with
          fields := applyMuts r.fields muts,
          changedFields := unionNames r.changedFields (muts.map (fun m => m.1)),
          status := if s.createdIds.contains r.id then r.status else Status.updated }
      Except.ok (r2, { s with db := replaceRec s.db r2 })

/-- Modelled from the spec: markDeleted sets status deleted; the tombstoned
    record remains queryable until purged (spec 4.3, markDeleted). -/
def markDeleted (inTx : Bool) (t : String) (id : Nat) (s : TxSt) :
    Except DbError (Rec × TxSt) :=
  if inTx = false then Except.error DbError.transactionScopeError
  else
    match find t id s.db with
    | Except.error e => Except.error e
    | Except.ok r =>
      let r2 : Rec := { r with status := Status.deleted }
      Except.ok (r2, { s with db := replaceRec s.db r2 })

/-- Modelled from the spec: destroyPermanently removes the physical row;
    forbidden outside a write transaction; fails with NotFoundError when the
    row is already purged (spec 4.3, destroyPermanently). -/
def destroyPermanently (inTx : Bool) (t : String) (id : Nat) (s : TxSt) :
    Except DbError TxSt :=
  if inTx = false then Except.error DbError.transactionScopeError
  else
    match find t id s.db with
    | Except.error e => Except.error e
    | Except.ok _ =>
      Except.ok { s with db := { s.db with
        records := s.db.records.filter (fun r => !(r.table == t && r.id == id)) } }

/-- Modelled from the spec: withWriteTransaction — runs the scoped function
    with the mutation API available (the true flag), commits its resulting
    state and returns its result on normal return, and rolls back entirely
    to the prior committed state on any propagated failure (spec sections 5
    and 6; database.write of src/unnamed/part_002). -/
def write {α : Type} (body : Bool → TxSt → Except DbError (α × TxSt)) (db : DB) :
    Except DbError α × DB :=
  match body true { db := db, createdIds := [] } with
  | Except.ok (a, s) => (Except.ok a, s.db)
  | Except.error e => (Except.error e, db)

/-- Predicate clauses of a query: equality, comparison, set membership;
    a query's clause list is their conjunction (spec 4.4, fetch). -/
inductive Clause where
  | whereEq (col : String) (v : Value)
  | whereGt (col : String) (v : Value)
  | whereOneOf (col : String) (vs : List Value)
deriving DecidableEq

/-- Numeric strict order on column values, used by comparison clauses. -/
def valueLt : Value → Value → Bool
  | Value.num a, Value.num b => decide (a < b)
  | _, _ => false

/-- Modelled from the spec: an immutable query descriptor over a single
    table (spec section 3, Query). -/
structure Query where
  table : String
  clauses : List Clause
deriving DecidableEq

/-- Whether one record satisfies one predicate clause. -/
def matchClause (r : Rec) : Clause → Bool
  | Clause.whereEq c v =>
    match lookupField r.fields c with
    | some w => w == v
    | none => false
  | Clause.whereGt c v =>
    match lookupField r.fields c with
    | some w => valueLt v w
    | none => false
  | Clause.whereOneOf c vs =>
    match lookupField r.fields c with
    | some w => vs.contains w
    | none => false

/-- Whether a record belongs to a query's result: same table and every
    clause satisfied. -/
def matchesQuery (q : Query) (r : Rec) : Bool :=
  r.table == q.table && q.clauses.all (matchClause r)

/-- Modelled from the spec: fetch evaluates the query's predicate against
    the current committed record store state and returns a snapshot
    (spec 4.4, fetch; database.get(table).query().fetch() in
    src/db/model/Users.ts, loadUsers). -/
def fetch (q : Query) (db : DB) : List Rec :=
  db.records.filter (matchesQuery q)

/-- One committed write transaction as seen by observers: the tables it
    touched and the committed state it produced (spec 4.4, observe). -/
structure Commit where
  touchedTables : List String
  result : DB
deriving DecidableEq

/-- Modelled from the spec: the emissions an observation produces after its
    initial snapshot.  A commit that does not touch the observed table never
    causes an emission; a commit touching it re-evaluates the query and
    emits exactly when the result set changed, tagged with the commit's
    position in transaction order (spec 4.4, observe). -/
def observeSteps (q : Query) (last : List Rec) (i : Nat) :
    List Commit → List (Nat × List Rec)
  | [] => []
  | c :: rest =>
    if c.touchedTables.contains q.table then
      let cur := fetch q c.result
      if cur = last then observeSteps q last (i + 1) rest
      else (i, cur) :: observeSteps q cur (i + 1) rest
    else observeSteps q last (i + 1) rest

/-- Modelled from the spec: observe immediately emits the current snapshot,
    then re-emits per observeSteps as write transactions commit
    (spec 4.4, observe). -/
def observe (q : Query) (db0 : DB) (commits : List Commit) :
    List (Nat × List Rec) :=
  (0, fetch q db0) :: observeSteps q (fetch q db0) 1 commits

/-- Modelled from the spec: the count emissions of observeCount after the
    initial one — same invalidation rule as observe, emitting only the
    cardinality (spec 4.4, observeCount). -/
def observeCountSteps (q : Query) (last : Nat) (i : Nat) :
    List Commit → List (Nat × Nat)
  | [] => []
  | c :: rest =>
    if c.touchedTables.contains q.table then
      let cur := (fetch q c.result).length
      if cur = last then observeCountSteps q last (i + 1) rest
      else (i, cur) :: observeCountSteps q cur (i + 1) rest
    else observeCountSteps q last (i + 1) rest

/-- Modelled from the spec: observeCount emits the current cardinality, then
    re-emits per observeCountSteps (spec 4.4, observeCount). -/
def observeCount (q : Query) (db0 : DB) (commits : List Commit) :
    List (Nat × Nat) :=
  (0, (fetch q db0).length) :: observeCountSteps q (fetch q db0).length 1 commits

/-- A structural delta of one migration step (spec section 3,
    Migration Step; the addColumns example of src/unnamed/part_002). -/
inductive MigrationStep where
  | addColumn (table : String) (col : ColumnSchema)
  | addTable (t : TableSchema)
deriving DecidableEq

/-- One migration: the target schema version it produces and its structural
    deltas (spec section 6, migration declaration surface). -/
structure Migration where
  toVersion : Nat
  steps : List MigrationStep
deriving DecidableEq

/-- Embedded from src/unnamed/part_002 (db/model/migration.ts):
    schemaMigrations with an empty migrations list. -/
def migrations : List Migration := []

/-- Apply one structural delta to the store: adding a column gives every
    existing row of that table a null value for it; adding a table touches
    no rows. -/
def applyStep (db : DB) : MigrationStep → DB
  | MigrationStep.addColumn table col =>
    { db with records := db.records.map (fun r =>
        if r.table == table then { r with fields := r.fields ++ [(col.name, Value.null)] }
        else r) }
  | MigrationStep.addTable _ => db

/-- Apply one migration's steps and record its target version. -/
def applyMigration (db : DB) (m : Migration) : DB :=
  { m.steps.foldl applyStep db with version := m.toVersion }

/-- Modelled from the spec: the migration runner's apply.  Equal versions
    are a no-op success; a downgrade fails with MigrationError; otherwise
    the subsequence of migrations with target version strictly above the
    current and at most the schema's is applied in declaration (ascending)
    order (spec 4.2, apply). -/
def applyMigrations (currentVersion : Nat) (target : AppSchema)
    (migs : List Migration) (db : DB) : Except DbError (Nat × DB) :=
  if currentVersion = target.version then Except.ok (currentVersion, db)
  else if target.version < currentVersion then Except.error DbError.migrationError
  else
    let selected := migs.filter (fun m =>
      currentVersion < m.toVersion && m.toVersion ≤ target.version)
    Except.ok (target.version,
      { selected.foldl applyMigration db with version := target.version })

/-- JavaScript's String.prototype.trim: strip leading and trailing
    whitespace (used by createUser in src/db/model/Users.ts). -/
def jsTrim (s : String) : String :=
  String.mk (((s.data.dropWhile Char.isWhitespace).reverse.dropWhile Char.isWhitespace).reverse)

/-- Embedded from src/db/model/Users.ts (DatabaseTest, createUser): when the
    trimmed name is empty the handler alerts and returns before any write
    transaction; otherwise a write transaction creates the user with the
    trimmed name and with the trimmed email or null when blank. -/
def createUser (name email : String) (now : Int) (db : DB) : Option Rec × DB :=
  if jsTrim name = "" then (none, db)
  else
    let init : List (String × Value) :=
      [ ("name", Value.str (jsTrim name)),
        ("email", if jsTrim email = "" then Value.null else Value.str (jsTrim email)) ]
    match write (fun inTx s => createRec inTx usersTable usersTimestampColumns now init s) db with
    | (Except.ok r, db2) => (some r, db2)
    | (Except.error _, db2) => (none, db2)

/-- Embedded from src/db/model/Users.ts (DatabaseTest, updateUser): inside a
    write transaction, find the user by identifier and append " (Updated)"
    to its name. -/
def updateUser (userId : Nat) (db : DB) : Except DbError Rec × DB :=
  write (fun inTx s =>
    match find "users" userId s.db with
    | Except.error e => Except.error e
    | Except.ok u =>
      match lookupField u.fields "name" with
      | some (Value.str n) =>
        updateRec inTx "users" userId [("name", Value.str (n ++ " (Updated)"))] s
      | _ => updateRec inTx "users" userId [] s) db

/-- Embedded from src/db/model/Users.ts (DatabaseTest, deleteUser): inside a
    write transaction, find the user by identifier and destroy it
    permanently. -/
def deleteUser (userId : Nat) (db : DB) : Except DbError Unit × DB :=
  write (fun inTx s =>
    match find "users" userId s.db with
    | Except.error e => Except.error e
    | Except.ok _ =>
      match destroyPermanently inTx "users" userId s with
      | Except.error e => Except.error e
      | Except.ok s2 => Except.ok ((), s2)) db

/-- The empty committed store at schema version 1. -/
def db0 : DB := { records := [], nextId := 0, version := 1 }

/-- Initializer of the round-trip scenario: name Ann, email explicitly
    null (spec section 8, round-trip property). -/
def annInit : List (String × Value) := [("name", Value.str "Ann"), ("email", Value.null)]

/-- Write-transaction body creating Ann (spec section 8 scenarios). -/
def annBody : Bool → TxSt → Except DbError (Rec × TxSt) :=
  fun inTx s => createRec inTx usersTable usersTimestampColumns 1000 annInit s

/-- The record the Ann creation produces. -/
def annRec : Rec :=
  { id := 0, table := "users",
    fields :=
      [ ("name", Value.str "Ann"), ("email", Value.null),
        ("created_at", Value.num 1000), ("updated_at", Value.num 1000) ],
    status := Status.created, changedFields := [] }

/-- The committed store after the Ann transaction. -/
def dbA : DB := (write annBody db0).2

/-- Write-transaction body creating Bob (spec section 8, observation
    correctness scenario). -/
def bobBody : Bool → TxSt → Except DbError (Rec × TxSt) :=
  fun inTx s =>
    createRec inTx usersTable usersTimestampColumns 2000 [("name", Value.str "Bob")] s

/-- The committed store after the Ann then Bob transactions. -/
def dbB : DB := (write bobBody dbA).2

/-- The query on table users filtered by name equal to Ann. -/
def qAnn : Query := { table := "users", clauses := [Clause.whereEq "name" (Value.str "Ann")] }

/-- The whole-table query on users. -/
def qAll : Query := { table := "users", clauses := [] }

/-- The Ann commit as observers see it. -/
def commitAnn : Commit := { touchedTables := ["users"], result := dbA }

/-- The Bob commit as observers see it. -/
def commitBob : Commit := { touchedTables := ["users"], result := dbB }

/-- A committed transaction that does not touch the users table. -/
def commitOther : Commit := { touchedTables := ["messages"], result := dbB }

/-- The record updateUser produces from the committed Ann record. -/
def annUpdated : Rec :=
  { id := 0, table := "users",
    fields :=
      [ ("name", Value.str "Ann (Updated)"), ("email", Value.null),
        ("created_at", Value.num 1000), ("updated_at", Value.num 1000) ],
    status := Status.updated, changedFields := ["name"] }

/-- A write-transaction body that creates one record and then throws the
    given error before completing (spec section 8, transaction atomicity
    scenario). -/
def createThenThrow (t : TableSchema) (tsCols : List String) (now : Int)
    (init : List (String × Value)) (e : DbError) :
    Bool → TxSt → Except DbError (Rec × TxSt) :=
  fun inTx s =>
    match createRec inTx t tsCols now init s with
    | Except.ok _ => Except.error e
    | Except.error e2 => Except.error e2

/-- The record updateRec produces from a found record: mutated fields,
    changed-field union, and the status rule of spec 4.3. -/
def updatedRec (r : Rec) (muts : List (String × Value)) (cis : List Nat) : Rec :=
  { r with
    fields := applyMuts r.fields muts,
    changedFields := unionNames r.changedFields (muts.map (fun m => m.1)),
    status := if cis.contains r.id then r.status else Status.updated }

/-- The record createUser persists for a non-blank name: trimmed name,
    trimmed-or-null email, engine timestamps, status created. -/
def createdUserRec (name email : String) (now : Int) (db : DB) : Rec :=
  { id := db.nextId, table := "users",
    fields :=
      [ ("name", Value.str (jsTrim name)),
        ("email", if jsTrim email = "" then Value.null else Value.str (jsTrim email)),
        ("created_at", Value.num now), ("updated_at", Value.num now) ],
    status := Status.created, changedFields := [] }

/-- The fresh record createRec builds once its columns are populated. -/
def freshRec (t : TableSchema) (fields : List (String × Value)) (db : DB) : Rec :=
  { id := db.nextId, table := t.name, fields := fields,
    status := Status.created, changedFields := [] }

/-- The transaction state after createRec persists a fresh record. -/
def afterCreate (t : TableSchema) (fields : List (String × Value)) (s : TxSt) : TxSt :=
  { db := { s.db with
      records := s.db.records ++ [freshRec t fields s.db],
      nextId := s.db.nextId + 1 },
    createdIds := s.db.nextId :: s.createdIds }

theorem find?_map_replace {α : Type} {p : α → Bool} {l : List α} {r r' : α}
    (hfind : l.find? p = some r) (hp : p r' = true) :
    (l.map (fun x => if p x then r' else x)).find? p = some r' := by
  induction l with
  | nil => simp at hfind
  | cons a l ih =>
    by_cases h : p a = true
    · rw [List.map_cons, if_pos h, List.find?_cons_of_pos _ hp]
    · rw [List.find?_cons_of_neg _ h] at hfind
      rw [List.map_cons, if_neg h, List.find?_cons_of_neg _ h]
      exact ih hfind

theorem find_replaceRec {t : String} {id : Nat} {db : DB} {r r' : Rec}
    (h : find t id db = Except.ok r) (ht : r'.table = t) (hid : r'.id = id) :
    find t id (replaceRec db r') = Except.ok r' := by
  subst ht hid
  unfold find at h ⊢
  cases hf : db.records.find? (fun x => x.table == r'.table && x.id == r'.id) with
  | none => rw [hf] at h; exact absurd h (by simp)
  | some x =>
    rw [hf] at h
    have hx : (fun x => x.table == r'.table && x.id == r'.id) r' = true := by simp
    rw [show (replaceRec db r').records
        = db.records.map (fun x =>
            if (fun y => y.table == r'.table && y.id == r'.id) x then r' else x) from rfl,
      find?_map_replace hf hx]

theorem find_purged {t : String} {id : Nat} {db : DB} :
    find t id { db with
      records := db.records.filter (fun r => !(r.table == t && r.id == id)) } =
      Except.error DbError.notFoundError := by
  unfold find
  rw [List.find?_eq_none.mpr]
  intro x hx
  have hmem := List.of_mem_filter hx
  simp only [Bool.not_eq_true'] at hmem
  simp [hmem]

theorem columnValue_error {tsCols : List String} {now : Int}
    {init : List (String × Value)} {c : ColumnSchema} {e : DbError}
    (h : columnValue tsCols now init c = Except.error e) :
    e = DbError.validationError := by
  unfold columnValue at h
  cases hl : lookupField init c.name with
  | some v => rw [hl] at h; exact absurd h (by simp)
  | none =>
    rw [hl] at h
    by_cases ht : tsCols.contains c.name
    · rw [if_pos ht] at h; exact absurd h (by simp)
    · rw [if_neg ht] at h
      by_cases ho : c.isOptional = true
      · rw [if_pos ho] at h; exact absurd h (by simp)
      · rw [if_neg ho] at h
        exact (Except.error.injEq .. ▸ h).symm

theorem populate_error {tsCols : List String} {now : Int}
    {init : List (String × Value)} {cols : List ColumnSchema} {c : ColumnSchema}
    (hc : c ∈ cols)
    (he : columnValue tsCols now init c = Except.error DbError.validationError) :
    populate tsCols now init cols = Except.error DbError.validationError := by
  induction cols with
  | nil => simp at hc
  | cons a cols ih =>
    unfold populate
    rcases List.mem_cons.mp hc with rfl | hmem
    · rw [he]
    · cases ha : columnValue tsCols now init a with
      | error e => rw [columnValue_error ha]
      | ok v => rw [ih hmem]

theorem populate_lookup {tsCols : List String} {now : Int}
    {init : List (String × Value)} {cols : List ColumnSchema}
    {fields : List (String × Value)} {c : ColumnSchema}
    (hpop : populate tsCols now init cols = Except.ok fields)
    (hnodup : (cols.map ColumnSchema.name).Nodup) (hc : c ∈ cols) :
    ∃ v, columnValue tsCols now init c = Except.ok v ∧
      lookupField fields c.name = some v := by
  induction cols generalizing fields with
  | nil => simp at hc
  | cons a cols ih =>
    unfold populate at hpop
    cases ha : columnValue tsCols now init a with
    | error e => rw [ha] at hpop; exact absurd hpop (by simp)
    | ok v =>
      rw [ha] at hpop
      cases hrest : populate tsCols now init cols with
      | error e => rw [hrest] at hpop; exact absurd hpop (by simp)
      | ok restFields =>
        rw [hrest] at hpop
        have hfields : fields = (a.name, v) :: restFields := by
          have := Except.ok.injEq .. ▸ hpop
          exact this.symm
        subst hfields
        rcases List.mem_cons.mp hc with rfl | hmem
        · exact ⟨v, ha, by simp [lookupField]⟩
        · have hne : a.name ≠ c.name := by
            intro hEq
            have : c.name ∈ cols.map ColumnSchema.name :=
              List.mem_map_of_mem ColumnSchema.name hmem
            rw [← hEq] at this
            exact (List.nodup_cons.mp hnodup).1 this
          obtain ⟨w, hw, hlw⟩ := ih hrest (List.nodup_cons.mp hnodup).2 hmem
          refine ⟨w, hw, ?_⟩
          unfold lookupField at hlw ⊢
          rw [List.find?_cons_of_neg]
          · exact hlw
          · simp [hne]

theorem find_ok_inv {t : String} {id : Nat} {db : DB} {r : Rec}
    (h : find t id db = Except.ok r) :
    db.records.find? (fun x => x.table == t && x.id == id) = some r ∧
    r.table = t ∧ r.id = id := by
  unfold find at h
  cases hf : db.records.find? (fun x => x.table == t && x.id == id) with
  | none => rw [hf] at h; exact absurd h (by simp)
  | some x =>
    rw [hf] at h
    injection h with hx
    subst hx
    have hp := List.find?_some hf
    simp only [Bool.and_eq_true, beq_iff_eq] at hp
    exact ⟨rfl, hp.1, hp.2⟩

theorem markDeleted_true {t : String} {id : Nat} {s : TxSt} {r : Rec}
    (h : find t id s.db = Except.ok r) :
    markDeleted true t id s =
      Except.ok ({ r with status := Status.deleted },
        { s with db := replaceRec s.db { r with status := Status.deleted } }) := by
  unfold markDeleted
  rw [h]
  rfl

theorem destroyPermanently_true {t : String} {id : Nat} {s : TxSt} {r : Rec}
    (h : find t id s.db = Except.ok r) :
    destroyPermanently true t id s =
      Except.ok { s with db := { s.db with
        records := s.db.records.filter (fun x => !(x.table == t && x.id == id)) } } := by
  unfold destroyPermanently
  rw [h]
  rfl

theorem destroyPermanently_notFound {t : String} {id : Nat} {s : TxSt}
    (h : find t id s.db = Except.error DbError.notFoundError) :
    destroyPermanently true t id s = Except.error DbError.notFoundError := by
  unfold destroyPermanently
  rw [h]
  rfl

theorem updateRec_true {t : String} {id : Nat} {s : TxSt} {r : Rec}
    {muts : List (String × Value)} (h : find t id s.db = Except.ok r) :
    updateRec true t id muts s =
      Except.ok (updatedRec r muts s.createdIds,
        { s with db := replaceRec s.db (updatedRec r muts s.createdIds) }) := by
  unfold updateRec
  rw [h]
  rfl

theorem createRec_true_ok {t : TableSchema} {tsCols : List String} {now : Int}
    {init : List (String × Value)} {s : TxSt} {fields : List (String × Value)}
    (h : populate tsCols now init t.columns = Except.ok fields) :
    createRec true t tsCols now init s =
      Except.ok (freshRec t fields s.db, afterCreate t fields s) := by
  unfold createRec freshRec afterCreate
  rw [h]
  rfl

theorem createRec_true_err {t : TableSchema} {tsCols : List String} {now : Int}
    {init : List (String × Value)} {s : TxSt} {e : DbError}
    (h : populate tsCols now init t.columns = Except.error e) :
    createRec true t tsCols now init s = Except.error e := by
  unfold createRec
  rw [h]
  rfl

theorem mem_unionNames_left {x : String} {xs ys : List String} (h : x ∈ xs) :
    x ∈ unionNames xs ys := by
  unfold unionNames
  exact List.mem_append_left _ h

theorem mem_unionNames_right {x : String} {xs ys : List String} (h : x ∈ ys) :
    x ∈ unionNames xs ys := by
  unfold unionNames
  by_cases hc : xs.contains x
  · exact List.mem_append_left _ (by simpa using hc)
  · refine List.mem_append_right _ ?_
    refine List.mem_filter.mpr ⟨h, ?_⟩
    simp only [Bool.not_eq_true'] at hc ⊢
    simpa using hc

theorem observeSteps_indices (q : Query) :
    ∀ (cs : List Commit) (last : List Rec) (i : Nat),
      List.Pairwise (fun a b => a.1 < b.1) (observeSteps q last i cs) ∧
      ∀ e ∈ observeSteps q last i cs, i ≤ e.1 := by
  intro cs
  induction cs with
  | nil => intro last i; simp [observeSteps]
  | cons c rest ih =>
    intro last i
    unfold observeSteps
    by_cases ht : c.touchedTables.contains q.table = true
    · rw [if_pos ht]
      by_cases hsame : fetch q c.result = last
      · rw [if_pos hsame]
        obtain ⟨hpw, hge⟩ := ih last (i + 1)
        exact ⟨hpw, fun e he => Nat.le_of_succ_le (hge e he)⟩
      · rw [if_neg hsame]
        obtain ⟨hpw, hge⟩ := ih (fetch q c.result) (i + 1)
        constructor
        · exact List.pairwise_cons.mpr ⟨fun e he => hge e he, hpw⟩
        · intro e he
          rcases List.mem_cons.mp he with rfl | hmem
          · exact Nat.le_refl i
          · exact Nat.le_of_succ_le (hge e hmem)
    · rw [if_neg ht]
      obtain ⟨hpw, hge⟩ := ih last (i + 1)
      exact ⟨hpw, fun e he => Nat.le_of_succ_le (hge e he)⟩

theorem columnValue_default {tsCols : List String} {now : Int}
    {init : List (String × Value)} {c : ColumnSchema}
    (hinit : lookupField init c.name = none) (hts : tsCols.contains c.name = false)
    (hopt : c.isOptional = true) :
    columnValue tsCols now init c = Except.ok Value.null := by
  have hn : c.name ∉ tsCols := by simpa using hts
  unfold columnValue
  rw [hinit]
  simp [hn, hopt]

theorem columnValue_required {tsCols : List String} {now : Int}
    {init : List (String × Value)} {c : ColumnSchema}
    (hinit : lookupField init c.name = none) (hts : tsCols.contains c.name = false)
    (hopt : c.isOptional = false) :
    columnValue tsCols now init c = Except.error DbError.validationError := by
  have hn : c.name ∉ tsCols := by simpa using hts
  unfold columnValue
  rw [hinit]
  simp [hn, hopt]

/-- Claim C1: a write transaction whose body creates one record and then
    throws before completing rolls back entirely: the wrapper surfaces the
    failure to the initiating caller only, the committed record set is
    unchanged, and every subsequent fetch sees zero new records. -/
theorem claim1_write_rollback (db : DB) (t : TableSchema) (tsCols : List String)
    (now : Int) (init : List (String × Value)) (e : DbError) (r : Rec) (s2 : TxSt)
    (hcreate : createRec true t tsCols now init { db := db, createdIds := [] } =
      Except.ok (r, s2)) :
    write (createThenThrow t tsCols now init e) db = (Except.error e, db) ∧
    (write (createThenThrow t tsCols now init e) db).2.records = db.records ∧
    ∀ q : Query,
      fetch q (write (createThenThrow t tsCols now init e) db).2 = fetch q db := by
  have hw : write (createThenThrow t tsCols now init e) db = (Except.error e, db) := by
    simp only [write, createThenThrow]
    rw [hcreate]
  exact ⟨hw, by rw [hw], fun q => by rw [hw]⟩

/-- Witness for claim C1 at the concrete Ann-then-throw transaction. -/
theorem claim1_write_rollback_witness :
    write (createThenThrow usersTable usersTimestampColumns 1000 annInit
      DbError.constraintError) db0 = (Except.error DbError.constraintError, db0) :=
  (claim1_write_rollback db0 usersTable usersTimestampColumns 1000 annInit
    DbError.constraintError annRec
    { db := { records := [annRec], nextId := 1, version := 1 }, createdIds := [0] }
    (by decide)).1

/-- Claim C2: every mutating operation invoked outside the dynamic scope of
    a write transaction fails with TransactionScopeError, modifying no
    state; inside the scope the mutations are available and the transaction
    wrapper returns the result of the scoped function. -/
theorem claim2_transaction_scope :
    (∀ (t : TableSchema) (tsCols : List String) (now : Int)
        (init : List (String × Value)) (s : TxSt),
      createRec false t tsCols now init s =
        Except.error DbError.transactionScopeError) ∧
    (∀ (t : String) (id : Nat) (muts : List (String × Value)) (s : TxSt),
      updateRec false t id muts s = Except.error DbError.transactionScopeError) ∧
    (∀ (t : String) (id : Nat) (s : TxSt),
      markDeleted false t id s = Except.error DbError.transactionScopeError) ∧
    (∀ (t : String) (id : Nat) (s : TxSt),
      destroyPermanently false t id s = Except.error DbError.transactionScopeError) ∧
    (∀ (α : Type) (body : Bool → TxSt → Except DbError (α × TxSt)) (db : DB)
        (a : α) (s2 : TxSt),
      body true { db := db, createdIds := [] } = Except.ok (a, s2) →
      write body db = (Except.ok a, s2.db)) := by
  refine ⟨fun t tsCols now init s => rfl, fun t id muts s => rfl,
    fun t id s => rfl, fun t id s => rfl, fun α body db a s2 h => ?_⟩
  unfold write
  rw [h]

/-- Witness for claim C2: the wrapper returns the scoped function's result
    for the concrete Ann transaction. -/
theorem claim2_transaction_scope_witness :
    write annBody db0 =
      (Except.ok annRec, { records := [annRec], nextId := 1, version := 1 }) :=
  claim2_transaction_scope.2.2.2.2 Rec annBody db0 annRec
    { db := { records := [annRec], nextId := 1, version := 1 }, createdIds := [0] }
    (by decide)

/-- Claim C3: markDeleted leaves a live record fetchable with status
    deleted; a subsequent destroyPermanently removes the physical row so
    find fails with NotFoundError; destroyPermanently is forbidden outside a
    write transaction and fails with NotFoundError once already purged. -/
theorem claim3_delete_then_purge (t : String) (id : Nat) (db : DB) (r : Rec)
    (cis : List Nat) (_hlive : ¬ r.status = Status.deleted)
    (hfind : find t id db = Except.ok r) :
    (∃ s2 : TxSt,
      markDeleted true t id { db := db, createdIds := cis } =
        Except.ok ({ r with status := Status.deleted }, s2) ∧
      find t id s2.db = Except.ok { r with status := Status.deleted } ∧
      ∃ s3 : TxSt, destroyPermanently true t id s2 = Except.ok s3 ∧
        find t id s3.db = Except.error DbError.notFoundError ∧
        destroyPermanently true t id s3 = Except.error DbError.notFoundError) ∧
    (∀ s : TxSt,
      destroyPermanently false t id s = Except.error DbError.transactionScopeError) := by
  obtain ⟨hf, ht, hid⟩ := find_ok_inv hfind
  constructor
  · have hdel : find t id (replaceRec db { r with status := Status.deleted }) =
        Except.ok { r with status := Status.deleted } :=
      find_replaceRec hfind ht hid
    refine ⟨{ db := replaceRec db { r with status := Status.deleted }, createdIds := cis },
      markDeleted_true hfind, hdel, ?_⟩
    exact ⟨_, destroyPermanently_true hdel, find_purged,
      destroyPermanently_notFound find_purged⟩
  · exact fun s => rfl

/-- Witness for claim C3 on the concrete committed store. -/
theorem claim3_delete_then_purge_witness :
    destroyPermanently false "users" 0 { db := dbA, createdIds := [] } =
      Except.error DbError.transactionScopeError :=
  (claim3_delete_then_purge "users" 0 dbA annRec [] (by decide) (by decide)).2
    { db := dbA, createdIds := [] }

/-- Claim C4: creating a record with name Ann and email null inside a write
    transaction and fetching it yields name Ann, email null and status
    created; in general create allocates a fresh identifier, defaults unset
    optional columns to null, fails with ValidationError on unset required
    columns and sets status created. -/
theorem claim4_create_roundtrip :
    (write annBody db0 = (Except.ok annRec, dbA) ∧
     find "users" 0 dbA = Except.ok annRec ∧
     lookupField annRec.fields "name" = some (Value.str "Ann") ∧
     lookupField annRec.fields "email" = some Value.null ∧
     annRec.status = Status.created) ∧
    (∀ (t : TableSchema) (tsCols : List String) (now : Int)
        (init : List (String × Value)) (s : TxSt) (r : Rec) (s2 : TxSt),
      createRec true t tsCols now init s = Except.ok (r, s2) →
      r.status = Status.created ∧ r.id = s.db.nextId ∧
      ((∀ x ∈ s.db.records, x.id < s.db.nextId) →
        ∀ x ∈ s.db.records, ¬ x.id = r.id) ∧
      (∀ c ∈ t.columns, (t.columns.map ColumnSchema.name).Nodup →
        lookupField init c.name = none → tsCols.contains c.name = false →
        c.isOptional = true → lookupField r.fields c.name = some Value.null)) ∧
    (∀ (t : TableSchema) (tsCols : List String) (now : Int)
        (init : List (String × Value)) (s : TxSt) (c : ColumnSchema),
      c ∈ t.columns → lookupField init c.name = none →
      tsCols.contains c.name = false → c.isOptional = false →
      createRec true t tsCols now init s = Except.error DbError.validationError) := by
  refine ⟨by decide, ?_, ?_⟩
  · intro t tsCols now init s r s2 h
    cases hp : populate tsCols now init t.columns with
    | error e =>
      rw [createRec_true_err hp] at h
      exact absurd h (by simp)
    | ok fields =>
      rw [createRec_true_ok hp] at h
      injection h with h2
      have hr : r = freshRec t fields s.db := (congrArg Prod.fst h2).symm
      subst hr
      refine ⟨rfl, rfl, ?_, ?_⟩
      · intro hwf x hx
        exact Nat.ne_of_lt (hwf x hx)
      · intro c hc hnodup hinit hts hopt
        obtain ⟨v, hv, hlv⟩ := populate_lookup hp hnodup hc
        rw [columnValue_default hinit hts hopt] at hv
        injection hv with hveq
        rw [← hveq] at hlv
        exact hlv
  · intro t tsCols now init s c hc hinit hts hopt
    exact createRec_true_err (populate_error hc (columnValue_required hinit hts hopt))

/-- Witness for claim C4: creating with an unset required column fails with
    ValidationError at a concrete input. -/
theorem claim4_create_roundtrip_witness :
    createRec true usersTable [] 0 [] { db := db0, createdIds := [] } =
      Except.error DbError.validationError :=
  claim4_create_roundtrip.2.2 usersTable [] 0 [] { db := db0, createdIds := [] }
    { name := "name", type := ColumnType.string, isOptional := false }
    (by decide) (by decide) (by decide) (by decide)

/-- Claim C5: updating a committed record inside a write transaction makes a
    subsequent find by identifier reflect the new value, recomputes
    changedFields as the union of the previously changed fields and the
    fields touched by this update, and sets status updated unless the record
    was created in the same uncommitted transaction, in which case the
    status stays created. -/
theorem claim5_update_semantics :
    ((updateUser 0 dbA).1 = Except.ok annUpdated ∧
     find "users" 0 (updateUser 0 dbA).2 = Except.ok annUpdated ∧
     "name" ∈ annUpdated.changedFields ∧ annUpdated.status = Status.updated) ∧
    (∀ (t : String) (id : Nat) (db : DB) (cis : List Nat)
        (muts : List (String × Value)) (r : Rec),
      find t id db = Except.ok r →
      updateRec true t id muts { db := db, createdIds := cis } =
        Except.ok (updatedRec r muts cis,
          { db := replaceRec db (updatedRec r muts cis), createdIds := cis }) ∧
      find t id (replaceRec db (updatedRec r muts cis)) =
        Except.ok (updatedRec r muts cis) ∧
      (updatedRec r muts cis).fields = applyMuts r.fields muts ∧
      (updatedRec r muts cis).changedFields =
        unionNames r.changedFields (muts.map (fun m => m.1)) ∧
      (∀ c ∈ muts.map (fun m => m.1), c ∈ (updatedRec r muts cis).changedFields) ∧
      (∀ c ∈ r.changedFields, c ∈ (updatedRec r muts cis).changedFields) ∧
      (cis.contains r.id = false → (updatedRec r muts cis).status = Status.updated) ∧
      (cis.contains r.id = true → (updatedRec r muts cis).status = r.status)) := by
  constructor
  · exact ⟨by decide, by decide, by decide, by decide⟩
  · intro t id db cis muts r hfind
    obtain ⟨hf, ht, hid⟩ := find_ok_inv hfind
    refine ⟨updateRec_true hfind, find_replaceRec hfind ht hid, rfl, rfl,
      fun c hc => mem_unionNames_right hc, fun c hc => mem_unionNames_left hc,
      ?_, ?_⟩
    · intro hcis
      have hn : r.id ∉ cis := by simpa using hcis
      simp [updatedRec, hn]
    · intro hcis
      have hm : r.id ∈ cis := by simpa using hcis
      simp [updatedRec, hm]

/-- Witness for claim C5 at the concrete committed Ann record. -/
theorem claim5_update_semantics_witness :
    updateRec true "users" 0 [("name", Value.str "Ann (Updated)")]
        { db := dbA, createdIds := [] } =
      Except.ok (updatedRec annRec [("name", Value.str "Ann (Updated)")] [],
        { db := replaceRec dbA (updatedRec annRec [("name", Value.str "Ann (Updated)")] []),
          createdIds := [] }) :=
  (claim5_update_semantics.2 "users" 0 dbA [] [("name", Value.str "Ann (Updated)")]
    annRec (by decide)).1

/-- Claim C6: the declared schema at version 1 defines exactly one table,
    users, whose columns are name (required string), email (optional
    string), created_at (number) and updated_at (number), and the version is
    a positive integer. -/
theorem claim6_schema_declaration :
    appSchema.version = 1 ∧ 0 < appSchema.version ∧
    appSchema.tables = [usersTable] ∧
    usersTable.name = "users" ∧
    usersTable.columns =
      [ { name := "name", type := ColumnType.string, isOptional := false },
        { name := "email", type := ColumnType.string, isOptional := true },
        { name := "created_at", type := ColumnType.number, isOptional := false },
        { name := "updated_at", type := ColumnType.number, isOptional := false } ] :=
  ⟨rfl, by decide, rfl, rfl, rfl⟩

/-- Claim C7: migration application is idempotent — when the current version
    equals the schema's version, apply is a no-op success leaving the stored
    version and every record (hence its changedFields) unchanged; when the
    current version exceeds the schema's version, apply fails with
    MigrationError. -/
theorem claim7_migration_apply (cv : Nat) (target : AppSchema)
    (migs : List Migration) (db : DB) :
    (cv = target.version → applyMigrations cv target migs db = Except.ok (cv, db)) ∧
    (target.version < cv →
      applyMigrations cv target migs db = Except.error DbError.migrationError) := by
  constructor
  · intro h
    unfold applyMigrations
    rw [if_pos h]
  · intro h
    unfold applyMigrations
    rw [if_neg (by omega), if_pos h]

/-- Witness for claim C7 on the repository's schema and its empty migration
    list. -/
theorem claim7_migration_apply_witness :
    applyMigrations 1 appSchema migrations dbA = Except.ok (1, dbA) ∧
    applyMigrations 2 appSchema migrations dbA = Except.error DbError.migrationError :=
  ⟨(claim7_migration_apply 1 appSchema migrations dbA).1 (by decide),
   (claim7_migration_apply 2 appSchema migrations dbA).2 (by decide)⟩

/-- Claim C8: for the observation on users filtered by name Ann, the Ann
    commit causes exactly one new emission containing that user, the Bob
    commit causes none on the filtered query while a whole-table
    observeCount does emit, commits not touching the observed table never
    cause an emission, and emission indices are strictly increasing in
    transaction order. -/
theorem claim8_observation_correctness :
    observe qAnn db0 [commitAnn] = [(0, []), (1, [annRec])] ∧
    observe qAnn db0 [commitAnn, commitBob, commitOther] = [(0, []), (1, [annRec])] ∧
    observeCount qAll db0 [commitAnn, commitBob] = [(0, 0), (1, 1), (2, 2)] ∧
    (∀ (q : Query) (db : DB) (cs : List Commit),
      List.Pairwise (fun a b => a.1 < b.1) (observe q db cs)) ∧
    (∀ (q : Query) (last : List Rec) (i : Nat) (c : Commit) (cs : List Commit),
      c.touchedTables.contains q.table = false →
      observeSteps q last i (c :: cs) = observeSteps q last (i + 1) cs) := by
  refine ⟨by decide, by decide, by decide, ?_, ?_⟩
  · intro q db cs
    obtain ⟨hpw, hge⟩ := observeSteps_indices q cs (fetch q db) 1
    exact List.pairwise_cons.mpr ⟨fun e he => hge e he, hpw⟩
  · intro q last i c cs h
    unfold observeSteps
    rw [if_neg (by simpa using h)]
    cases cs with
    | nil => rfl
    | cons d ds => rfl

/-- Witness for claim C8: a commit not touching the users table adds no
    emission. -/
theorem claim8_observation_correctness_witness :
    observeSteps qAnn [] 1 [commitOther] = observeSteps qAnn [] 2 [] :=
  claim8_observation_correctness.2.2.2.2 qAnn [] 1 commitOther [] (by decide)

/-- Claim C9: for every input name that trims to empty, the create-user
    operation returns before starting a write transaction: no record is
    created and the stored set of users is unchanged. -/
theorem claim9_blank_name_noop (name email : String) (now : Int) (db : DB)
    (h : jsTrim name = "") :
    createUser name email now db = (none, db) := by
  unfold createUser
  rw [if_pos h]

/-- Witness for claim C9 at a whitespace-only name. -/
theorem claim9_blank_name_noop_witness :
    createUser "   " "x@y.z" 7 db0 = (none, db0) :=
  claim9_blank_name_noop "   " "x@y.z" 7 db0 (by decide)

/-- Claim C10: the create-user operation normalizes its inputs before
    persisting — the stored name is the trimmed input name, a blank or
    whitespace-only email is stored as null rather than as an empty string,
    and no created user record ever holds an empty-string email. -/
theorem claim10_input_normalization (name email : String) (now : Int) (db : DB)
    (h : ¬ jsTrim name = "") :
    createUser name email now db =
      (some (createdUserRec name email now db),
        { db with records := db.records ++ [createdUserRec name email now db],
                  nextId := db.nextId + 1 }) ∧
    lookupField (createdUserRec name email now db).fields "name" =
      some (Value.str (jsTrim name)) ∧
    lookupField (createdUserRec name email now db).fields "email" =
      some (if jsTrim email = "" then Value.null else Value.str (jsTrim email)) ∧
    ¬ lookupField (createdUserRec name email now db).fields "email" =
      some (Value.str "") := by
  refine ⟨?_, rfl, rfl, ?_⟩
  · unfold createUser
    rw [if_neg h]
    rfl
  · intro hbad
    rw [show lookupField (createdUserRec name email now db).fields "email" =
        some (if jsTrim email = "" then Value.null else Value.str (jsTrim email))
      from rfl] at hbad
    by_cases hc : jsTrim email = ""
    · rw [if_pos hc] at hbad
      exact absurd hbad (by simp)
    · rw [if_neg hc] at hbad
      injection hbad with h2
      injection h2 with h3
      exact hc h3

/-- Witness for claim C10 at a padded name and a whitespace-only email. -/
theorem claim10_input_normalization_witness :
    createUser "  Ann " " " 500 db0 =
      (some (createdUserRec "  Ann " " " 500 db0),
        { db0 with records := db0.records ++ [createdUserRec "  Ann " " " 500 db0],
                   nextId := db0.nextId + 1 }) :=
  (claim10_input_normalization "  Ann " " " 500 db0 (by decide)).1

end MessageApp
